import Mathlib

/-!
Verification development for the ScrollageJS progress/range calculation engine
and property-interpolation pipeline (src/utils.js, src/breakpoints.js,
src/easing.js, src/animation.js, src/index.js).

The source is shallowly embedded: JavaScript numbers are modelled as exact
rationals; places where the code can actually produce the IEEE special values
are modelled explicitly.  `JSNum` is a four-state JS number (finite value,
NaN, +Infinity, -Infinity) and is used for the scroll-progress pipeline,
whose division can hit a zero denominator.  In parsed configuration data,
where only NaN (never an infinity) can arise, a JS number is `Option Rat`
with `none` playing the role of NaN (NaN is absorbing for the arithmetic the
code performs on these values).  Code that can throw a TypeError is embedded
in `Except Unit`.
-/

/-- A JavaScript number as produced by the scroll-progress arithmetic:
either a finite value (modelled exactly as a rational), NaN, or a signed
infinity. -/
inductive JSNum where
  | num (q : ℚ)
  | nan
  | inf
  | ninf
deriving DecidableEq

/-- JS division `a / b` of two finite numbers: on a zero denominator it
yields NaN for a zero numerator and a signed infinity otherwise (the
denominator, being produced by `x - x` on finite values, is positive zero). -/
def jsDivQ (a b : ℚ) : JSNum :=
  if b = 0 then
    if a = 0 then .nan else if a > 0 then .inf else .ninf
  else
    .num (a / b)

/-- JS multiplication of a (possibly special) number by a finite constant. -/
def jsMulC : JSNum → ℚ → JSNum
  | .num q, c => .num (q * c)
  | .nan, _ => .nan
  | .inf, c => if c > 0 then .inf else if c < 0 then .ninf else .nan
  | .ninf, c => if c > 0 then .ninf else if c < 0 then .inf else .nan

/-- JS division of a (possibly special) number by a finite constant. -/
def jsDivN : JSNum → ℚ → JSNum
  | .num q, c => jsDivQ q c
  | .nan, _ => .nan
  | .inf, c => if c < 0 then .ninf else .inf
  | .ninf, c => if c < 0 then .inf else .ninf

/-- `Math.max`: NaN if either argument is NaN. -/
def jsMax : JSNum → JSNum → JSNum
  | .nan, _ => .nan
  | _, .nan => .nan
  | .inf, _ => .inf
  | _, .inf => .inf
  | .ninf, y => y
  | x, .ninf => x
  | .num a, .num b => .num (max a b)

/-- `Math.min`: NaN if either argument is NaN. -/
def jsMin : JSNum → JSNum → JSNum
  | .nan, _ => .nan
  | _, .nan => .nan
  | .ninf, _ => .ninf
  | _, .ninf => .ninf
  | .inf, y => y
  | x, .inf => x
  | .num a, .num b => .num (min a b)

/-- The absolute scroll-position interval computed by `getTimelineRange`
(src/index.js): `{ start, end }` in pixels. -/
structure TimelineRange where
  start : ℚ
  end_ : ℚ
deriving DecidableEq

/-- `getScrollProgress` (src/index.js, lines 1054-1076), given the current
scroll position and the (cached) timeline range.  The scroll position itself
and the range come from the DOM / the range calculator; the function body is
embedded verbatim:

    const scrollStart = timelineRangeData.start - scrollPos;
    const scrollEnd = timelineRangeData.end - scrollPos;
    let scrollPercentage = scrollStart / (scrollEnd - scrollStart) * -100;
    scrollPercentage = Math.min(100, Math.max(0, scrollPercentage));
    return scrollPercentage / 100;
-/
def getScrollProgress (scrollPos : ℚ) (tr : TimelineRange) : JSNum :=
  let scrollStart := tr.start - scrollPos
  let scrollEnd := tr.end_ - scrollPos
  let scrollPercentage := jsMulC (jsDivQ scrollStart (scrollEnd - scrollStart)) (-100)
  let clamped := jsMin (.num 100) (jsMax (.num 0) scrollPercentage)
  jsDivN clamped 100

/-- A `{ x, y }` dimension pair (viewport, wrapper, source or element sizes). -/
structure Sizes where
  x : ℚ
  y : ℚ
deriving DecidableEq

/-- `calculateUnitValue` (src/utils.js, lines 187-194): converts a unit-based
value into an absolute pixel value.  The JS `switch` falls through to the
percent interpretation for any unrecognised (or absent) unit; an absent unit
is `none`.  The JS signature is
`calculateUnitValue(unit, value, winSizes, totalSize, elSize = 0)`. -/
def calculateUnitValue (unit : Option String) (value : ℚ) (winSizes : Sizes)
    (totalSize : ℚ) (elSize : ℚ) : ℚ :=
  if unit = some "vw" then winSizes.x * value / 100
  else if unit = some "vh" then winSizes.y * value / 100
  else if unit = some "px" then value
  else (totalSize - elSize) * value / 100

/-- `roundValue` (src/utils.js, lines 204-206):
`Math.round(value * 10 ** decimals) / 10 ** decimals`.  JS `Math.round`
rounds half-way cases toward positive infinity, which is exactly
Mathlib's `round`. -/
def roundValue (value : ℚ) (decimals : ℕ) : ℚ :=
  (round (value * 10 ^ decimals) : ℤ) / (10 : ℚ) ^ decimals

/-- Geometry of a scope element as read from the DOM
(`offsetWidth`/`offsetHeight` and `getBoundingClientRect().top/left`). -/
structure ScopeGeom where
  offsetWidth : ℚ
  offsetHeight : ℚ
  rectLeft : ℚ
  rectTop : ℚ
deriving DecidableEq

/-- The instance state read by `getTimelineRange` (src/index.js): cached
viewport/wrapper/source sizes, source client rect, scroll direction and
whether the scroll source is the document. -/
structure ScrollageState where
  winSizes : Sizes
  wrapperSizes : Sizes
  sourceSizes : Sizes
  sourceRectLeft : ℚ
  sourceRectTop : ℚ
  isVertical : Bool
  isDocumentSource : Bool
deriving DecidableEq

def contextWinSize (st : ScrollageState) : ℚ :=
  if st.isVertical then st.winSizes.y else st.winSizes.x

def contextWrapperSize (st : ScrollageState) : ℚ :=
  if st.isVertical then st.wrapperSizes.y else st.wrapperSizes.x

def contextSourceSize (st : ScrollageState) : ℚ :=
  if st.isVertical then st.sourceSizes.y else st.sourceSizes.x

/-- `scrollFrameSize`: viewport size for the document source, otherwise the
wrapper's own visible size. -/
def scrollFrameSize (st : ScrollageState) : ℚ :=
  if st.isDocumentSource then contextWinSize st else contextWrapperSize st

def contextScopeSize (st : ScrollageState) (sc : ScopeGeom) : ℚ :=
  if st.isVertical then sc.offsetHeight else sc.offsetWidth

/-- `contextScopeStart = scopeRectStart - sourceRectStart`. -/
def contextScopeStart (st : ScrollageState) (sc : ScopeGeom) : ℚ :=
  (if st.isVertical then sc.rectTop else sc.rectLeft) -
    (if st.isVertical then st.sourceRectTop else st.sourceRectLeft)

/-- The body of `getTimelineRange` (src/index.js, lines 957-1039) after the
raw range offsets have been split into `(value, unit)` pairs (lines 961-966
are the splitting prologue, embedded separately).  `scope = none` is the
`!scopeEl || scopeEl == this.source` branch. -/
def getTimelineRangeCore (st : ScrollageState) (scope : Option ScopeGeom)
    (rangeStartValue : ℚ) (rangeStartUnit : String)
    (rangeEndValue : ℚ) (rangeEndUnit : String) : TimelineRange :=
  match scope with
  | none =>
      let rangeOffsetStart :=
        calculateUnitValue (some rangeStartUnit) rangeStartValue st.winSizes (contextSourceSize st) 0
      let rangeOffsetEnd :=
        calculateUnitValue (some rangeEndUnit) rangeEndValue st.winSizes (contextSourceSize st) 0
      let timelineRangeStart := max 0 (rangeOffsetStart - scrollFrameSize st)
      let timelineRangeEnd := max timelineRangeStart
        (min (contextSourceSize st + rangeOffsetEnd) (contextSourceSize st - scrollFrameSize st))
      { start := timelineRangeStart, end_ := timelineRangeEnd }
  | some sc =>
      let contextScopeEnd := contextScopeStart st sc + contextScopeSize st sc
      let rangeOffsetStart :=
        calculateUnitValue (some rangeStartUnit) rangeStartValue st.winSizes (contextScopeSize st sc) 0
      let rangeOffsetEnd :=
        calculateUnitValue (some rangeEndUnit) rangeEndValue st.winSizes (contextScopeSize st sc) 0
      let timelineRangeStart := max 0 (contextScopeStart st sc + rangeOffsetStart - scrollFrameSize st)
      let timelineRangeEnd := max timelineRangeStart
        (min (contextScopeEnd + rangeOffsetEnd) (contextSourceSize st - scrollFrameSize st))
      { start := timelineRangeStart, end_ := timelineRangeEnd }

/-- Modelled from the spec's words, for comparison with the code (spec §4.3
steps 5-6 and claim C3): `start = max(0, baseStart + offsetStart - frameSize)`;
`end = max(start, min(baseEnd + offsetEnd [- frameSize if no-scope],
contentSize - frameSize))`.  `noScope` selects the extra `- frameSize`
subtraction the spec prescribes for the no-scope case. -/
def claimTimelineRange (contentSize frameSize baseStart baseEnd offS offE : ℚ)
    (noScope : Bool) : TimelineRange :=
  let s := max 0 (baseStart + offS - frameSize)
  { start := s,
    end_ := max s (min (baseEnd + offE - (if noScope then frameSize else 0))
      (contentSize - frameSize)) }

/-- A character matched by the leading `[-.\d]+` group of the
`splitValueUnit` regex. -/
def isNumPrefixChar (c : Char) : Bool :=
  c.isDigit || c == '-' || c == '.'

def digitsToNat (l : List Char) : ℕ :=
  l.foldl (fun a c => 10 * a + (c.toNat - '0'.toNat)) 0

/-- JS `Number(s)` for a string drawn from the characters `[-.\d]`:
an optional leading sign, digits, at most one decimal point, and at least
one digit somewhere; anything else is NaN (`none`). -/
def jsNumber (s : String) : Option ℚ :=
  let cs := s.data
  let neg := cs.head? = some '-'
  let rest := if neg then cs.drop 1 else cs
  if rest.any (fun c => !(c.isDigit || c == '.')) then none
  else if 1 < (rest.filter (fun c => c == '.')).length then none
  else
    let intPart := rest.takeWhile (fun c => c != '.')
    let fracPart := (rest.dropWhile (fun c => c != '.')).drop 1
    if intPart.isEmpty && fracPart.isEmpty then none
    else
      let q : ℚ := (digitsToNat intPart : ℚ) + (digitsToNat fracPart : ℚ) / 10 ^ fracPart.length
      some (if neg then -q else q)

/-- The `{ value, unit }` object returned by `splitValueUnit`.  `value` is a
JS number with `none` standing for NaN; `unit` is `none` when the field is
absent (numeric input). -/
structure SplitVU where
  value : Option ℚ
  unit : Option String
deriving DecidableEq

/-- A JavaScript value as it occurs in parsed attribute JSON. -/
inductive JVal where
  | num (q : ℚ)
  | str (s : String)
  | bool (b : Bool)
  | null
  | obj (fields : List (String × JVal))

/-- JS truthiness of a `JVal`. -/
def JVal.truthy : JVal → Bool
  | .num q => if q = 0 then false else true
  | .str s => s != ""
  | .bool b => b
  | .null => false
  | .obj _ => true

/-- First-match association-list lookup (JS property read on an object whose
keys are unique). -/
def getField {α : Type} : List (String × α) → String → Option α
  | [], _ => none
  | (k, v) :: t, key => if k = key then some v else getField t key

/-- JS `acc[key] = val`: overwrite in place if the key exists, else append. -/
def insertOverwrite {α : Type} : List (String × α) → String → α → List (String × α)
  | [], k, v => [(k, v)]
  | (k1, v1) :: t, k, v =>
      if k1 = k then (k, v) :: t else (k1, v1) :: insertOverwrite t k v

/-- The value of the last entry with the given key (what a left-to-right
overwrite fold ends up storing). -/
def lastLookup {α : Type} : List (String × α) → String → Option α
  | [], _ => none
  | (k, v) :: t, key =>
      match lastLookup t key with
      | some w => some w
      | none => if k = key then some v else none

/-- `String.toLowerCase` (character-wise; the keys and easing names in the
attribute schema are ASCII). -/
def jsToLower (s : String) : String :=
  String.mk (s.data.map Char.toLower)

/-- Key normalization in `extractStartEndData` (src/animation.js 287-290):
`Object.keys(obj).reduce((acc, key) => { acc[key.toLowerCase()] = obj[key]; ... }, {})`. -/
def normalizeKeys (l : List (String × JVal)) : List (String × JVal) :=
  l.foldl (fun acc kv => insertOverwrite acc (jsToLower kv.1) kv.2) []

/-- JS `String.trim` over the characters that occur in attribute values
(ASCII whitespace). -/
def isJsSpace (c : Char) : Bool :=
  c == ' ' || c == '\t' || c == '\n' || c == '\r'

def jsTrim (s : String) : String :=
  String.mk (((s.data.dropWhile isJsSpace).reverse.dropWhile isJsSpace).reverse)

/-- `splitValueUnit` (src/utils.js, lines 164-174).  A number comes back as
`{ value }`; a falsy or non-string argument yields `undefined` (`ok none`);
a string is matched against `/^([-.\d]+(?:\.\d+)?)(.*)$/` — when the match
fails (no leading `[-.\d]` character, or a line break keeps `(.*)$` from
reaching the end) the code reads `strSplit[1]` off the `null` match result
and throws a TypeError (`error ()`). -/
def splitValueUnit (v : JVal) : Except Unit (Option SplitVU) :=
  match v with
  | .num q => .ok (some { value := some q, unit := none })
  | .str s =>
      if s = "" then .ok none
      else
        let pre := s.data.takeWhile isNumPrefixChar
        let rest := s.data.drop pre.length
        if pre.isEmpty then .error ()
        else if rest.any (fun c => c == '\n' || c == '\r') then .error ()
        else .ok (some { value := jsNumber (String.mk pre), unit := some (jsTrim (String.mk rest)) })
  | _ => .ok none

/-- An element attribute's raw JSON text, modelled by its parse outcome
(`JSON.parse` is a host-platform primitive; only whether it throws and what
value it yields are observable to this code). -/
inductive JsonSrc where
  | malformed
  | valid (v : JVal)

/-- `safeParseJSON` (src/utils.js, lines 246-253): returns the parsed value,
or logs and returns `{}` when `JSON.parse` throws. -/
def safeParseJSON : JsonSrc → JVal
  | .malformed => .obj []
  | .valid v => v

/-- The 21 named easing functions of src/easing.js (keys of `EasingFuncs`).
Their numeric bodies involve `sin`, `cos`, `sqrt` and `2^x` and are
irrational; every claim proved here concerns control paths on which none of
them is evaluated, so their semantics is kept as a parameter `evalE` and
all theorems hold for every semantics. -/
inductive EasingFn where
  | insine | outsine | inoutsine
  | incubic | outcubic | inoutcubic
  | inquintic | outquintic | inoutquintic
  | incircle | outcircle | inoutcircle
  | inback | outback | inoutback
  | inbounce | outbounce | inoutbounce
  | inelastic | outelastic | inoutelastic
deriving DecidableEq

/-- Name-to-function lookup on the `EasingFuncs` table (src/easing.js,
lines 6-74); `none` models the JS `undefined` for a missing key. -/
def EasingFuncs : String → Option EasingFn
  | "insine" => some .insine
  | "outsine" => some .outsine
  | "inoutsine" => some .inoutsine
  | "incubic" => some .incubic
  | "outcubic" => some .outcubic
  | "inoutcubic" => some .inoutcubic
  | "inquintic" => some .inquintic
  | "outquintic" => some .outquintic
  | "inoutquintic" => some .inoutquintic
  | "incircle" => some .incircle
  | "outcircle" => some .outcircle
  | "inoutcircle" => some .inoutcircle
  | "inback" => some .inback
  | "outback" => some .outback
  | "inoutback" => some .inoutback
  | "inbounce" => some .inbounce
  | "outbounce" => some .outbounce
  | "inoutbounce" => some .inoutbounce
  | "inelastic" => some .inelastic
  | "outelastic" => some .outelastic
  | "inoutelastic" => some .inoutelastic
  | _ => none

/-- `getAnimationProgress` (src/animation.js, lines 374-385): clamps the
progress to `[0,1]`, applies the easing function when `easing` is truthy and
`EasingFuncs[easing.toLowerCase()]` exists, and interpolates
`start + (end - start) * progress`.  `start`/`end` are JS numbers with
`none` for NaN (NaN is absorbing through the interpolation). -/
def getAnimationProgress (evalE : EasingFn → ℚ → ℚ) (start end_ : Option ℚ)
    (progress : ℚ) (easing : Option String) : Option ℚ :=
  let p := max 0 (min 1 progress)
  let p1 :=
    match easing with
    | some s =>
        if s = "" then p
        else
          match EasingFuncs (jsToLower s) with
          | some f => evalE f p
          | none => p
    | none => p
  match start, end_ with
  | some s, some e => some (s + (e - s) * p1)
  | _, _ => none

/-- The least `k` with `d ∣ 10^k`, when one exists (iff `d` has no prime
factor other than 2 and 5; such a `k` is at most `d`). -/
def termExp (d : ℕ) : Option ℕ :=
  (List.range (d + 1)).find? (fun k => decide (d ∣ 10 ^ k))

/-- Decimal rendering of a rational with terminating decimal expansion,
matching how JS prints such a number in a template string (shortest form, no
trailing zeros, `-0` prints as `0`).  Every number the code interpolates
into a CSS string has first passed `roundValue`, so its denominator divides
a power of ten. -/
def ratToJsString (q : ℚ) : String :=
  match termExp q.den with
  | some k =>
      let n : ℕ := q.num.natAbs * (10 ^ k / q.den)
      let ip := n / 10 ^ k
      let fp := n % 10 ^ k
      let fpStr := toString fp
      let fpPad := String.mk (List.replicate (k - fpStr.length) '0') ++ fpStr
      (if q < 0 then "-" else "") ++ toString ip ++ (if k = 0 then "" else "." ++ fpPad)
  | none => "nonterminating"

/-- Template-string interpolation of a JS number (`none` = NaN). -/
def jnumToString : Option ℚ → String
  | some q => ratToJsString q
  | none => "NaN"

/-- JS `Array.join(sep)` for a string list. -/
def joinSep (sep : String) : List String → String
  | [] => ""
  | [a] => a
  | a :: t => a ++ sep ++ joinSep sep t

instance {ε α : Type} [DecidableEq ε] [DecidableEq α] : DecidableEq (Except ε α) := fun a b =>
  match a, b with
  | .ok x, .ok y =>
      if h : x = y then .isTrue (by rw [h]) else .isFalse (by intro hh; cases hh; exact h rfl)
  | .error x, .error y =>
      if h : x = y then .isTrue (by rw [h]) else .isFalse (by intro hh; cases hh; exact h rfl)
  | .ok _, .error _ => .isFalse (by intro h; cases h)
  | .error _, .ok _ => .isFalse (by intro h; cases h)

/-- Per-axis default `{ start, end }` entry of `ANIMATION_DEFAULTS`
(src/animation.js, lines 205-270). -/
structure AxisDefault where
  start : SplitVU
  end_ : SplitVU
deriving DecidableEq

/-- The fields of an `ANIMATION_DEFAULTS` entry that `extractStartEndData`
reads (`start`, `end` and the per-axis defaults; `easing`/`responsive` of the
defaults objects are never read by it). -/
structure DefaultObj where
  start : Option SplitVU
  end_ : Option SplitVU
  x : Option AxisDefault
  y : Option AxisDefault
  z : Option AxisDefault
deriving DecidableEq

/-- An extracted `{ start, end }` pair for one axis. -/
structure AxisPair where
  start : Option SplitVU
  end_ : Option SplitVU
deriving DecidableEq

/-- The object returned by `extractStartEndData`: either the top-level
`{ start, end }` shortcut form (axes absent) or one `{ start, end }` pair per
present axis. -/
structure ExtractCfg where
  start : Option SplitVU
  end_ : Option SplitVU
  x : Option AxisPair
  y : Option AxisPair
  z : Option AxisPair
deriving DecidableEq

/-- A `{ value }` default with no unit. -/
def vu (q : ℚ) : SplitVU := { value := some q, unit := none }

/-- A `{ unit: '%', value }` default. -/
def vuPct (q : ℚ) : SplitVU := { value := some q, unit := some "%" }

def moveDefaults : DefaultObj :=
  { start := none, end_ := none,
    x := some ⟨vuPct 0, vuPct 0⟩, y := some ⟨vuPct 0, vuPct 0⟩, z := none }

def rotateDefaults : DefaultObj :=
  { start := some (vu 0), end_ := some (vu 0),
    x := some ⟨vu 0, vu 0⟩, y := some ⟨vu 0, vu 0⟩, z := some ⟨vu 0, vu 0⟩ }

def scaleDefaults : DefaultObj :=
  { start := some (vu 100), end_ := some (vu 100),
    x := some ⟨vu 100, vu 100⟩, y := some ⟨vu 100, vu 100⟩, z := some ⟨vu 100, vu 100⟩ }

def fadeDefaults : DefaultObj :=
  { start := some (vu 100), end_ := some (vu 100), x := none, y := none, z := none }

def saturateDefaults : DefaultObj :=
  { start := some (vu 100), end_ := some (vu 100), x := none, y := none, z := none }

def blurDefaults : DefaultObj :=
  { start := some (vu 0), end_ := some (vu 0), x := none, y := none, z := none }

def optTruthy : Option JVal → Bool
  | some v => v.truthy
  | none => false

def hasKeyB (l : List (String × JVal)) (k : String) : Bool :=
  (getField l k).isSome

/-- `'key' in normalizedObj ? splitValueUnit(normalizedObj.key) : dflt`
(top-level branch of `extractStartEndData`). -/
def pickTop (n : List (String × JVal)) (key : String) (dflt : Option SplitVU) :
    Except Unit (Option SplitVU) :=
  match getField n key with
  | some jv => splitValueUnit jv
  | none => .ok dflt

/-- `normalizedObj[k] ? splitValueUnit(normalizedObj[k]) : axisDefault`
(axis branch of `extractStartEndData`; the guard here is truthiness of the
raw value, not key presence). -/
def pickAxisVal (o : Option JVal) (dflt : SplitVU) : Except Unit (Option SplitVU) :=
  match o with
  | some jv => if jv.truthy then splitValueUnit jv else .ok (some dflt)
  | none => .ok (some dflt)

def extractAxis (n : List (String × JVal)) (axis : String) (d : AxisDefault) :
    Except Unit AxisPair := do
  let s ← pickAxisVal (getField n ("start" ++ axis)) d.start
  let e ← pickAxisVal (getField n ("end" ++ axis)) d.end_
  .ok ⟨s, e⟩

/-- `defaultObj[axis] && (normalizedObj[startAxis] || normalizedObj[endAxis])`. -/
def axisWanted (n : List (String × JVal)) (axis : String) : Bool :=
  optTruthy (getField n ("start" ++ axis)) || optTruthy (getField n ("end" ++ axis))

/-- `extractStartEndData` (src/animation.js, lines 284-318).  Keys are
lowercased first; a top-level `start`/`end` wins and suppresses the axis
form; otherwise one pair per wanted axis, with per-field fallback to the
type defaults.  `Object.keys(null)` throws; on a non-object the key list is
empty. -/
def extractStartEndData (v : JVal) (d : DefaultObj) : Except Unit ExtractCfg := do
  let fields ←
    match v with
    | .null => Except.error ()
    | .obj fs => Except.ok fs
    | _ => Except.ok ([] : List (String × JVal))
  let n := normalizeKeys fields
  if hasKeyB n "start" || hasKeyB n "end" then do
    let s ← pickTop n "start" d.start
    let e ← pickTop n "end" d.end_
    .ok ⟨s, e, none, none, none⟩
  else do
    let x ← match d.x with
      | some dx =>
          if axisWanted n "x" then do
            let p ← extractAxis n "x" dx
            pure (some p)
          else pure none
      | none => pure none
    let y ← match d.y with
      | some dy =>
          if axisWanted n "y" then do
            let p ← extractAxis n "y" dy
            pure (some p)
          else pure none
      | none => pure none
    let z ← match d.z with
      | some dz =>
          if axisWanted n "z" then do
            let p ← extractAxis n "z" dz
            pure (some p)
          else pure none
      | none => pure none
    .ok ⟨none, none, x, y, z⟩

/-- A per-property animation config as cached by `getAnimationData`
(src/animation.js, lines 346-352): the spread of the extracted
`start`/`end`/axis fields plus `easing` and the per-breakpoint `responsive`
override table (whose entries are plain extraction results — they carry no
`easing` or `responsive` of their own). -/
structure AnimationCfg where
  start : Option SplitVU
  end_ : Option SplitVU
  x : Option AxisPair
  y : Option AxisPair
  z : Option AxisPair
  easing : Option String
  responsive : Option (List (String × ExtractCfg))
deriving DecidableEq

/-- Reading a responsive override out of the table yields an object without
`easing`/`responsive` fields; a JS property read on those missing fields
gives `undefined` (`none`). -/
def ExtractCfg.toAnim (e : ExtractCfg) : AnimationCfg :=
  ⟨e.start, e.end_, e.x, e.y, e.z, none, none⟩

/-- `parsedData.responsive || {}` as a field list; a property read on a
non-null primitive gives `undefined`, and `Object.keys` of a truthy
non-object value is empty. -/
def respFieldsOf (pd : JVal) : List (String × JVal) :=
  match pd with
  | .obj fs =>
      match getField fs "responsive" with
      | some v => if v.truthy then (match v with | .obj l => l | _ => []) else []
      | none => []
  | _ => []

/-- `easing: parsedData.easing || undefined`.  The attribute schema types
`easing` as a string; a truthy non-string value (which the interpolators
would only later trip over when calling `toLowerCase`) is outside the
modelled schema and treated as absent. -/
def easingOf (pd : JVal) : Option String :=
  match pd with
  | .obj fs =>
      match getField fs "easing" with
      | some (.str s) => if s = "" then none else some s
      | _ => none
  | _ => none

/-- One step of the `responsiveConfig` reduce (src/animation.js, lines
341-344): extract the override object for one breakpoint key and store it. -/
def respStep (d : DefaultObj) (acc : List (String × ExtractCfg)) (kv : String × JVal) :
    Except Unit (List (String × ExtractCfg)) := do
  let e ← extractStartEndData kv.2 d
  pure (insertOverwrite acc kv.1 e)

/-- The `responsiveConfig` reduce: one `extractStartEndData` per breakpoint
key, accumulated by object insertion. -/
def buildResp (l : List (String × JVal)) (d : DefaultObj) :
    Except Unit (List (String × ExtractCfg)) :=
  l.foldlM (respStep d) []

/-- `parsedData.responsive` throws a TypeError when the parse produced
`null`. -/
def nullGuard : JVal → Except Unit Unit
  | .null => .error ()
  | _ => .ok ()

/-- The per-attribute body of `getAnimationData` (src/animation.js, lines
336-352) applied to one parsed attribute value: `parsedData.responsive`
(throws on `null`), the responsive reduce, the top-level extraction, and the
final object spread.  `responsive` is kept only when the raw responsive
object has keys. -/
def mkAnimationCfg (d : DefaultObj) (pd : JVal) : Except Unit AnimationCfg := do
  let _ ← nullGuard pd
  let respFields := respFieldsOf pd
  let respCfg ← buildResp respFields d
  let ex ← extractStartEndData pd d
  .ok ⟨ex.start, ex.end_, ex.x, ex.y, ex.z, easingOf pd,
    if respFields.isEmpty then none else some respCfg⟩

/-- The `data-scrollage-*` attributes of one element, each modelled by its
JSON parse outcome; `none` is an absent (or empty, hence falsy) attribute. -/
structure ElAttrs where
  move : Option JsonSrc
  rotate : Option JsonSrc
  scale : Option JsonSrc
  fade : Option JsonSrc
  saturate : Option JsonSrc
  blur : Option JsonSrc

/-- One entry of the `animations` array: an object with exactly one
property-kind key. -/
inductive Animation where
  | move (c : AnimationCfg)
  | rotate (c : AnimationCfg)
  | scale (c : AnimationCfg)
  | fade (c : AnimationCfg)
  | saturate (c : AnimationCfg)
  | blur (c : AnimationCfg)
deriving DecidableEq

def procAttr (o : Option JsonSrc) (d : DefaultObj) (k : AnimationCfg → Animation) :
    Except Unit (List Animation) :=
  match o with
  | some src => do
      let c ← mkAnimationCfg d (safeParseJSON src)
      pure [k c]
  | none => pure []

/-- `getAnimationData` (src/animation.js, lines 328-357): iterate the
property kinds in the insertion order of `ANIMATION_DEFAULTS` (move, rotate,
scale, fade, saturate, blur), parsing and extracting each present
attribute. -/
def getAnimationData (a : ElAttrs) : Except Unit (List Animation) := do
  let m ← procAttr a.move moveDefaults .move
  let r ← procAttr a.rotate rotateDefaults .rotate
  let s ← procAttr a.scale scaleDefaults .scale
  let f ← procAttr a.fade fadeDefaults .fade
  let sa ← procAttr a.saturate saturateDefaults .saturate
  let b ← procAttr a.blur blurDefaults .blur
  pure (m ++ r ++ s ++ f ++ sa ++ b)

/-- `animation.<kind>.responsive?.[breakpoint] || animation.<kind>`
(src/index.js, lines 1122-1151): the effective config the interpolators
receive — the stored override for the active breakpoint when there is one
(overrides are objects, hence truthy), else the base config. -/
def effectiveCfg (c : AnimationCfg) (bp : String) : AnimationCfg :=
  match c.responsive with
  | some m =>
      match getField m bp with
      | some ov => ov.toAnim
      | none => c
  | none => c

/-- A JS property read that throws a TypeError when the value is
`undefined`. -/
def reqField {α : Type} : Option α → Except Unit α
  | some a => .ok a
  | none => .error ()

/-- `move` (src/animation.js, lines 402-419).  Each present axis resolves its
`start`/`end` unit values to pixels via `calculateUnitValue` against the
range, element and window sizes, interpolates, and is rounded; a missing
axis contributes `0`.  Reading `start`/`end` off an axis entry that holds
`undefined` throws. -/
def move (evalE : EasingFn → ℚ → ℚ) (animationData : AnimationCfg) (progress : ℚ)
    (rangeSize elSize winSize : Sizes) : Except Unit String := do
  let calculateMovement : Option AxisPair → ℚ → ℚ → Except Unit (Option ℚ) := fun ax rs es =>
    match ax with
    | none => .ok (some 0)
    | some pr => do
        let s ← reqField pr.start
        let e ← reqField pr.end_
        .ok (getAnimationProgress evalE
          (s.value.map (fun v => calculateUnitValue s.unit v winSize rs es))
          (e.value.map (fun v => calculateUnitValue e.unit v winSize rs es))
          progress animationData.easing)
  let vx ← calculateMovement animationData.x rangeSize.x elSize.x
  let vy ← calculateMovement animationData.y rangeSize.y elSize.y
  let valueX := vx.map (fun v => roundValue v 1)
  let valueY := vy.map (fun v => roundValue v 1)
  .ok ("translate(" ++ jnumToString valueX ++ "px, " ++ jnumToString valueY ++ "px)")

/-- `rotate` (src/animation.js, lines 433-457): a combined `start`/`end`
(both truthy) takes priority and emits a single `rotate(..deg)`; otherwise
one `rotateX/Y/Z(..deg)` token per present axis, joined by spaces. -/
def rotate (evalE : EasingFn → ℚ → ℚ) (animationData : AnimationCfg) (progress : ℚ) :
    Except Unit String := do
  let calculateRotation : AxisPair → Except Unit (Option ℚ) := fun pr => do
    let s ← reqField pr.start
    let e ← reqField pr.end_
    .ok (getAnimationProgress evalE s.value e.value progress animationData.easing)
  if animationData.start.isSome && animationData.end_.isSome then do
    let s ← reqField animationData.start
    let e ← reqField animationData.end_
    let value := getAnimationProgress evalE s.value e.value progress animationData.easing
    .ok ("rotate(" ++ jnumToString (value.map (fun v => roundValue v 1)) ++ "deg)")
  else do
    let rx ← match animationData.x with
      | some pr => do
          let v ← calculateRotation pr
          pure ["rotateX(" ++ jnumToString (v.map (fun w => roundValue w 1)) ++ "deg)"]
      | none => pure []
    let ry ← match animationData.y with
      | some pr => do
          let v ← calculateRotation pr
          pure ["rotateY(" ++ jnumToString (v.map (fun w => roundValue w 1)) ++ "deg)"]
      | none => pure []
    let rz ← match animationData.z with
      | some pr => do
          let v ← calculateRotation pr
          pure ["rotateZ(" ++ jnumToString (v.map (fun w => roundValue w 1)) ++ "deg)"]
      | none => pure []
    .ok (joinSep " " (rx ++ ry ++ rz))

/-- `scale` (src/animation.js, lines 471-494): values are divided by 100
before interpolation; the combined form is rounded to 2 decimals, the
per-axis `scaleX/scaleY` tokens are emitted unrounded. -/
def scale (evalE : EasingFn → ℚ → ℚ) (animationData : AnimationCfg) (progress : ℚ) :
    Except Unit String := do
  let calculateScale : AxisPair → Except Unit (Option ℚ) := fun pr => do
    let s ← reqField pr.start
    let e ← reqField pr.end_
    .ok (getAnimationProgress evalE (s.value.map (fun v => v / 100))
      (e.value.map (fun v => v / 100)) progress animationData.easing)
  if animationData.start.isSome && animationData.end_.isSome then do
    let s ← reqField animationData.start
    let e ← reqField animationData.end_
    let value := getAnimationProgress evalE (s.value.map (fun v => v / 100))
      (e.value.map (fun v => v / 100)) progress animationData.easing
    .ok ("scale(" ++ jnumToString (value.map (fun v => roundValue v 2)) ++ ")")
  else do
    let sx ← match animationData.x with
      | some pr => do
          let v ← calculateScale pr
          pure ["scaleX(" ++ jnumToString v ++ ")"]
      | none => pure []
    let sy ← match animationData.y with
      | some pr => do
          let v ← calculateScale pr
          pure ["scaleY(" ++ jnumToString v ++ ")"]
      | none => pure []
    .ok (joinSep " " (sx ++ sy))

/-- `fade` (src/animation.js, lines 507-510): interpolates the scalar,
divides by 100 and rounds to 2 decimals; the result is a bare number
assigned to `opacity`. -/
def fade (evalE : EasingFn → ℚ → ℚ) (animationData : AnimationCfg) (progress : ℚ) :
    Except Unit (Option ℚ) := do
  let s ← reqField animationData.start
  let e ← reqField animationData.end_
  let value := getAnimationProgress evalE s.value e.value progress animationData.easing
  .ok (value.map (fun v => roundValue (v / 100) 2))

/-- `saturate` (src/animation.js, lines 523-526): interpolates with no
easing argument and emits `saturate(N%)` rounded to 0 decimals. -/
def saturate (evalE : EasingFn → ℚ → ℚ) (animationData : AnimationCfg) (progress : ℚ) :
    Except Unit String := do
  let s ← reqField animationData.start
  let e ← reqField animationData.end_
  let value := getAnimationProgress evalE s.value e.value progress none
  .ok ("saturate(" ++ jnumToString (value.map (fun v => roundValue v 0)) ++ "%)")

/-- `blur` (src/animation.js, lines 539-542): interpolates with no easing
argument and emits `blur(Npx)` rounded to 0 decimals. -/
def blur (evalE : EasingFn → ℚ → ℚ) (animationData : AnimationCfg) (progress : ℚ) :
    Except Unit String := do
  let s ← reqField animationData.start
  let e ← reqField animationData.end_
  let value := getAnimationProgress evalE s.value e.value progress none
  .ok ("blur(" ++ jnumToString (value.map (fun v => roundValue v 0)) ++ "px)")

/-- The inline style writes of one `animate` pass over one block:
`transform` and `filter` are written when at least one token was collected,
`opacity` when some fade ran. -/
structure StyleUpdate where
  transform : Option String
  filter : Option String
  opacity : Option (Option ℚ)
deriving DecidableEq

/-- One iteration of the `animate` inner loop (src/index.js, lines
1119-1152): resolve the breakpoint override, then dispatch on the property
kind; `saturate`/`blur`/`fade` run only when both `start` and `end` are
present on the effective config (`curAnimationData.start &&
curAnimationData.end`). -/
def animStep (evalE : EasingFn → ℚ → ℚ) (bp : String) (progress : ℚ)
    (scopeSizes elSizes winSizes : Sizes)
    (acc : List String × List String × Option (Option ℚ)) (anim : Animation) :
    Except Unit (List String × List String × Option (Option ℚ)) :=
  match anim with
  | .move c => do
      let cd := effectiveCfg c bp
      let t ← move evalE cd progress scopeSizes elSizes winSizes
      .ok (acc.1 ++ [t], acc.2.1, acc.2.2)
  | .rotate c => do
      let cd := effectiveCfg c bp
      let t ← rotate evalE cd progress
      .ok (acc.1 ++ [t], acc.2.1, acc.2.2)
  | .scale c => do
      let cd := effectiveCfg c bp
      let t ← scale evalE cd progress
      .ok (acc.1 ++ [t], acc.2.1, acc.2.2)
  | .saturate c =>
      let cd := effectiveCfg c bp
      if cd.start.isSome && cd.end_.isSome then do
        let f ← saturate evalE cd progress
        .ok (acc.1, acc.2.1 ++ [f], acc.2.2)
      else .ok acc
  | .blur c =>
      let cd := effectiveCfg c bp
      if cd.start.isSome && cd.end_.isSome then do
        let f ← blur evalE cd progress
        .ok (acc.1, acc.2.1 ++ [f], acc.2.2)
      else .ok acc
  | .fade c =>
      let cd := effectiveCfg c bp
      if cd.start.isSome && cd.end_.isSome then do
        let v ← fade evalE cd progress
        .ok (acc.1, acc.2.1, some v)
      else .ok acc

/-- The full `animate` pass for one block (src/index.js, lines 1104-1158):
fold the animations, then join the collected tokens (`transforms.join(' ')`,
`filters.join(' ')`) and write each style only when something was
produced. -/
def animateBlock (evalE : EasingFn → ℚ → ℚ) (anims : List Animation) (bp : String)
    (progress : ℚ) (scopeSizes elSizes winSizes : Sizes) : Except Unit StyleUpdate := do
  let acc ← anims.foldlM (animStep evalE bp progress scopeSizes elSizes winSizes) ([], [], none)
  .ok ⟨if acc.1.isEmpty then none else some (joinSep " " acc.1),
    if acc.2.1.isEmpty then none else some (joinSep " " acc.2.1),
    acc.2.2⟩

/-- `rangeStartData?.value || 0`: an `undefined` split result, a NaN value
or a zero all collapse to `0`. -/
def valOrZero (x : Option (Option ℚ)) : ℚ :=
  (x.join).getD 0

/-- `rangeStartData?.unit || '%'`: an absent or empty unit falls back to
percent. -/
def unitOrPct (u : Option String) : String :=
  match u with
  | some s => if s = "" then "%" else s
  | none => "%"

/-- `getTimelineRange` (src/index.js, lines 957-1039) including the
`splitValueUnit` prologue (lines 961-966); a throw inside `splitValueUnit`
propagates. -/
def getTimelineRange (st : ScrollageState) (scope : Option ScopeGeom)
    (rangeStart rangeEnd : JVal) : Except Unit TimelineRange := do
  let rangeStartData ← splitValueUnit rangeStart
  let rangeEndData ← splitValueUnit rangeEnd
  .ok (getTimelineRangeCore st scope
    (valOrZero (rangeStartData.map SplitVU.value))
    (unitOrPct (rangeStartData.bind SplitVU.unit))
    (valOrZero (rangeEndData.map SplitVU.value))
    (unitOrPct (rangeEndData.bind SplitVU.unit)))

/-- Concrete fixture: a fade attribute whose base config sets `start: 5` and
whose `phone` override sets only `end: 7`. -/
def c7pd : JVal :=
  .obj [("start", .num 5), ("responsive", .obj [("phone", .obj [("end", .num 7)])])]

/-- The stored `phone` override of `c7pd`: `end` comes from the override,
`start` from the fade type default (100) — not from the base's 5. -/
def c7ov : ExtractCfg :=
  ⟨some ⟨some 100, none⟩, some ⟨some 7, none⟩, none, none, none⟩

def c7cfg : AnimationCfg :=
  ⟨some ⟨some 5, none⟩, some ⟨some 100, none⟩, none, none, none, none, some [("phone", c7ov)]⟩

/-- On a non-degenerate range the progress computation is ordinary rational
arithmetic: `min(100, max(0, (start - pos) / (end - start) * -100)) / 100`. -/
theorem getScrollProgress_num (s e p : ℚ) (h : e - s ≠ 0) :
    getScrollProgress p ⟨s, e⟩ =
      .num (min 100 (max 0 ((s - p) / (e - s) * (-100))) / 100) := by
  have hd : (e - p) - (s - p) = e - s := by ring
  unfold getScrollProgress
  simp only [hd]
  unfold jsDivQ
  rw [if_neg h]
  have h100 : (100 : ℚ) ≠ 0 := by norm_num
  simp [jsMulC, jsMax, jsMin, jsDivN, jsDivQ, h100]

theorem getScrollProgress_degenerate (s p : ℚ) :
    getScrollProgress p ⟨s, s⟩ =
      if p < s then .num 0 else if p = s then .nan else .num 1 := by
  have hd : (s - p) - (s - p) = 0 := by ring
  unfold getScrollProgress
  simp only [hd]
  have hneg : ¬ ((-100 : ℚ) > 0) := by norm_num
  have hneg2 : ((-100 : ℚ) < 0) := by norm_num
  have h100 : (100 : ℚ) ≠ 0 := by norm_num
  rcases lt_trichotomy p s with hlt | heq | hgt
  · have h2 : s - p > 0 := by linarith
    rw [show jsDivQ (s - p) 0 = JSNum.inf from by simp [jsDivQ, ne_of_gt h2, h2]]
    rw [if_pos hlt]
    simp [jsMulC, jsMax, jsMin, jsDivN, jsDivQ, hneg, hneg2, h100]
  · have h0 : s - p = 0 := by rw [heq, sub_self]
    rw [h0, show jsDivQ 0 0 = JSNum.nan from by simp [jsDivQ]]
    rw [if_neg (by rw [heq]; exact lt_irrefl s), if_pos heq]
    simp [jsMulC, jsMax, jsMin, jsDivN]
  · have h1 : s - p < 0 := by linarith
    rw [show jsDivQ (s - p) 0 = JSNum.ninf from by
      simp [jsDivQ, ne_of_lt h1, not_lt.mpr (le_of_lt h1)]]
    rw [if_neg (not_lt.mpr (le_of_lt hgt)), if_neg (ne_of_gt hgt)]
    simp [jsMulC, jsMax, jsMin, jsDivN, jsDivQ, hneg, hneg2, h100]

/-- C1: the claim (with spec §4.4) requires that for a degenerate range
(`start == end`) `getScrollProgress` never returns NaN or Infinity and
yields 0 for `scrollPos <= range.start`, else 1.  The code has no
degenerate-range guard: at `scrollPos = range.start = range.end` the
division is `0/0`, and the resulting NaN survives `Math.min(100,
Math.max(0, _))`, so the function returns NaN — concretely at scroll
position 100 on the range `{start: 100, end: 100}`.  Strictly away from
that point the clamped infinities do produce 0 and 1. -/
theorem C1_degenerate_range_returns_nan (s p : ℚ) :
    getScrollProgress p ⟨s, s⟩ =
      (if p < s then .num 0 else if p = s then .nan else .num 1)
    ∧ getScrollProgress 100 ⟨100, 100⟩ = .nan := by
  refine ⟨getScrollProgress_degenerate s p, ?_⟩
  simpa using getScrollProgress_degenerate 100 100

/-- C2 counterexample: on the fixed range `{start: 0, end: 100}` the
progress at scroll position 0 is 0 and at scroll position 50 is 1/2, and
1/2 is not at most 0 — so `scrollPos ↦ getScrollProgress(scrollPos, range)`
is not monotonically non-increasing as the claim states. -/
theorem C2_counterexample :
    getScrollProgress 0 ⟨0, 100⟩ = .num 0
    ∧ getScrollProgress 50 ⟨0, 100⟩ = .num (1/2)
    ∧ ¬ ((1 : ℚ)/2 ≤ 0) := by
  refine ⟨?_, ?_, by norm_num⟩
  · rw [getScrollProgress_num 0 100 0 (by norm_num)]
    norm_num
  · rw [getScrollProgress_num 0 100 50 (by norm_num)]
    norm_num

/-- C2 (amended): for every fixed timeline range with `end > start`,
`scrollPos ↦ getScrollProgress(scrollPos, range)` is monotonically
non-decreasing (not non-increasing) in the scroll position, and its value
is a finite number in `[0, 1]`. -/
theorem C2_progress_monotone_nondecreasing (s e p1 p2 : ℚ)
    (hse : s < e) (h12 : p1 ≤ p2) :
    ∃ q1 q2, getScrollProgress p1 ⟨s, e⟩ = .num q1
      ∧ getScrollProgress p2 ⟨s, e⟩ = .num q2
      ∧ q1 ≤ q2 ∧ 0 ≤ q1 ∧ q1 ≤ 1 ∧ 0 ≤ q2 ∧ q2 ≤ 1 := by
  have hpos : (0 : ℚ) < e - s := by linarith
  have hne : e - s ≠ 0 := ne_of_gt hpos
  refine ⟨_, _, getScrollProgress_num s e p1 hne, getScrollProgress_num s e p2 hne,
    ?_, ?_, ?_, ?_, ?_⟩
  · have hnum : s - p2 ≤ s - p1 := by linarith
    have hdiv : (s - p2) / (e - s) ≤ (s - p1) / (e - s) :=
      (div_le_div_iff_of_pos_right hpos).mpr hnum
    have hmul : (s - p1) / (e - s) * (-100) ≤ (s - p2) / (e - s) * (-100) :=
      mul_le_mul_of_nonpos_right hdiv (by norm_num)
    gcongr
  · exact div_nonneg (le_min (by norm_num) (le_max_left _ _)) (by norm_num)
  · exact (div_le_one (by norm_num)).mpr (min_le_left _ _)
  · exact div_nonneg (le_min (by norm_num) (le_max_left _ _)) (by norm_num)
  · exact (div_le_one (by norm_num)).mpr (min_le_left _ _)

theorem C2_progress_monotone_nondecreasing_witness :
    (0 : ℚ) < 100 ∧ (10 : ℚ) ≤ 20
    ∧ ∃ q1 q2, getScrollProgress 10 ⟨0, 100⟩ = .num q1
      ∧ getScrollProgress 20 ⟨0, 100⟩ = .num q2
      ∧ q1 ≤ q2 ∧ 0 ≤ q1 ∧ q1 ≤ 1 ∧ 0 ≤ q2 ∧ q2 ≤ 1 :=
  ⟨by norm_num, by norm_num,
    C2_progress_monotone_nondecreasing 0 100 10 20 (by norm_num) (by norm_num)⟩

theorem calculateUnitValue_px (v : ℚ) (w : Sizes) (t e : ℚ) :
    calculateUnitValue (some "px") v w t e = v := rfl

/-- C3 counterexample: vertical document source, viewport height 500,
scrollable source height 1000, no scope, offsets `0px` and `-100px`.  The
code computes `end = max(start, min(1000 + (-100), 1000 - 500)) = 500`,
while the claimed formula (`- frameSize` inside the `min` in the no-scope
case) yields `end = max(start, min(1000 + (-100) - 500, 1000 - 500)) =
400`. -/
theorem C3_counterexample :
    getTimelineRangeCore ⟨⟨800, 500⟩, ⟨800, 500⟩, ⟨800, 1000⟩, 0, 0, true, true⟩
      none 0 "px" (-100) "px" = ⟨0, 500⟩
    ∧ claimTimelineRange 1000 500 0 1000 0 (-100) true = ⟨0, 400⟩
    ∧ ((⟨0, 500⟩ : TimelineRange) ≠ ⟨0, 400⟩) := by
  refine ⟨?_, ?_, ?_⟩
  · simp [getTimelineRangeCore, contextSourceSize, scrollFrameSize, contextWinSize,
      contextWrapperSize, calculateUnitValue]
    norm_num
  · simp [claimTimelineRange]
    norm_num
  · intro h
    have := congrArg TimelineRange.end_ h
    norm_num at this

/-- C3 (amended): with every quantity resolved in pixels,
`start = max(0, baseStart + offsetStart - frameSize)` with `baseStart = 0`
(no scope) or the scope's offset from the source origin, and
`end = max(start, min(baseEnd + offsetEnd, sourceSize - frameSize))` with
`baseEnd` the source's scrollable size (no scope) or the scope's end offset
— the `min` ceiling is always the source size minus the frame size, and no
extra `frameSize` is subtracted from `baseEnd + offsetEnd` in the no-scope
case; `end >= start` holds for every offset and unit. -/
theorem C3_timeline_range_geometry (st : ScrollageState) (scope : Option ScopeGeom)
    (vS vE : ℚ) :
    (getTimelineRangeCore st scope vS "px" vE "px").start =
      max 0 ((match scope with
        | none => (0 : ℚ)
        | some sc => contextScopeStart st sc) + vS - scrollFrameSize st)
    ∧ (getTimelineRangeCore st scope vS "px" vE "px").end_ =
      max (getTimelineRangeCore st scope vS "px" vE "px").start
        (min ((match scope with
          | none => contextSourceSize st
          | some sc => contextScopeStart st sc + contextScopeSize st sc) + vE)
          (contextSourceSize st - scrollFrameSize st))
    ∧ (∀ (a b : ℚ) (ua ub : String),
        (getTimelineRangeCore st scope a ua b ub).start ≤
          (getTimelineRangeCore st scope a ua b ub).end_) := by
  refine ⟨?_, ?_, ?_⟩ <;> rcases scope with _ | sc
  · simp [getTimelineRangeCore, calculateUnitValue_px, zero_add]
  · simp [getTimelineRangeCore, calculateUnitValue_px]
  · simp [getTimelineRangeCore, calculateUnitValue_px]
  · simp [getTimelineRangeCore, calculateUnitValue_px]
  · intro a b ua ub
    simp only [getTimelineRangeCore]
    exact le_max_left _ _
  · intro a b ua ub
    simp only [getTimelineRangeCore]
    exact le_max_left _ _

/-- C4: `calculateUnitValue` returns `viewportWidth * value / 100` for
`vw`, `viewportHeight * value / 100` for `vh`, the value unchanged for
`px`, and `(containerSize - elementSize) * value / 100` for every other
unit (percent, none, or anything unrecognised); consequently it is linear
in the value for every fixed unit and context. -/
theorem C4_calculateUnitValue_units (w : Sizes) (t el v a b v1 v2 : ℚ)
    (u : Option String) :
    calculateUnitValue (some "vw") v w t el = w.x * v / 100
    ∧ calculateUnitValue (some "vh") v w t el = w.y * v / 100
    ∧ calculateUnitValue (some "px") v w t el = v
    ∧ (u ≠ some "vw" → u ≠ some "vh" → u ≠ some "px" →
        calculateUnitValue u v w t el = (t - el) * v / 100)
    ∧ calculateUnitValue u (a * v1 + b * v2) w t el =
        a * calculateUnitValue u v1 w t el + b * calculateUnitValue u v2 w t el := by
  refine ⟨rfl, rfl, rfl, ?_, ?_⟩
  · intro h1 h2 h3
    unfold calculateUnitValue
    rw [if_neg h1, if_neg h2, if_neg h3]
  · unfold calculateUnitValue
    split_ifs <;> ring

theorem C4_calculateUnitValue_units_witness :
    (some "%" ≠ some "vw") ∧ (some "%" ≠ some "vh") ∧ (some "%" ≠ some "px")
    ∧ calculateUnitValue (some "%") 40 ⟨800, 600⟩ 1000 50 = (1000 - 50) * 40 / 100 :=
  ⟨by decide, by decide, by decide,
    (C4_calculateUnitValue_units ⟨800, 600⟩ 1000 50 40 2 3 5 7 (some "%")).2.2.2.1
      (by decide) (by decide) (by decide)⟩

/-- C5: when the easing name is not a key of the `EasingFuncs` table after
lowercasing, `getAnimationProgress` applies no easing and (total function,
no throw) returns `start + (end - start) * clamp01(progress)`. -/
theorem C5_unknown_easing_identity (evalE : EasingFn → ℚ → ℚ) (s e p : ℚ)
    (name : String) (h : EasingFuncs (jsToLower name) = none) :
    getAnimationProgress evalE (some s) (some e) p (some name) =
      some (s + (e - s) * max 0 (min 1 p)) := by
  unfold getAnimationProgress
  by_cases hs : name = ""
  · simp [hs]
  · simp [hs, h]

theorem C5_unknown_easing_identity_witness :
    EasingFuncs (jsToLower "linear") = none
    ∧ getAnimationProgress (fun _ q => q) (some 2) (some 4) (1/2) (some "linear") =
        some (2 + (4 - 2) * max 0 (min 1 ((1 : ℚ)/2))) :=
  ⟨by decide, C5_unknown_easing_identity (fun _ q => q) 2 4 (1/2) "linear" (by decide)⟩

/-- C6: on a string with no parseable numeric prefix the `splitValueUnit`
regex match is `null` and the code dereferences `strSplit[1]`, throwing a
TypeError — it does not return `undefined` as the claim states.  On inputs
with a numeric prefix, and on numbers, it behaves as documented. -/
theorem C6_splitValueUnit_throws_on_abc :
    splitValueUnit (.str "abc") = .error ()
    ∧ splitValueUnit (.str "50%") = .ok (some ⟨some 50, some "%"⟩)
    ∧ splitValueUnit (.str "-60px") = .ok (some ⟨some (-60), some "px"⟩)
    ∧ splitValueUnit (.num 7) = .ok (some ⟨some 7, none⟩)
    ∧ splitValueUnit (.str "") = .ok none := by
  refine ⟨by decide, ?_, ?_, rfl, by decide⟩
  · simp [splitValueUnit, jsNumber, digitsToNat, isNumPrefixChar, jsTrim]
    decide
  · simp [splitValueUnit, jsNumber, digitsToNat, isNumPrefixChar, jsTrim]
    decide

theorem gap_zero (evalE : EasingFn → ℚ → ℚ) (s e : ℚ) :
    getAnimationProgress evalE (some s) (some e) 0 none = some s := by
  unfold getAnimationProgress
  have h1 : min (1 : ℚ) 0 = 0 := min_eq_right (by norm_num)
  have h2 : max (0 : ℚ) 0 = 0 := max_self 0
  simp [h1, h2]

theorem gap_one (evalE : EasingFn → ℚ → ℚ) (s e : ℚ) :
    getAnimationProgress evalE (some s) (some e) 1 none = some e := by
  unfold getAnimationProgress
  have h1 : min (1 : ℚ) 1 = 1 := min_self 1
  have h2 : max (0 : ℚ) 1 = 1 := max_eq_right (by norm_num)
  simp [h1, h2]

/-- C9: with identity easing (no easing name) every interpolator evaluated
at progress 0 depends only on the configured start value and yields exactly
its rendering of that start value, and at progress 1 exactly its rendering
of the end value, because the shared interpolation
`start + (end - start) * clamp01(progress)` equals `start` at 0 and `end`
at 1 (the first two conjuncts); `saturate`/`blur` never pass an easing, so
their configured easing may be arbitrary. -/
theorem C9_interpolators_hit_endpoints (evalE : EasingFn → ℚ → ℚ)
    (sv ev sxv exv syv eyv : ℚ) (su eu sxu exu syu eyu : Option String)
    (ea : Option String) (stt enn : Option SplitVU) (xq yq zq : Option AxisPair)
    (resp : Option (List (String × ExtractCfg))) (rs es ws : Sizes) :
    getAnimationProgress evalE (some sv) (some ev) 0 none = some sv
    ∧ getAnimationProgress evalE (some sv) (some ev) 1 none = some ev
    ∧ fade evalE ⟨some ⟨some sv, su⟩, some ⟨some ev, eu⟩, xq, yq, zq, none, resp⟩ 0 =
        .ok (some (roundValue (sv / 100) 2))
    ∧ fade evalE ⟨some ⟨some sv, su⟩, some ⟨some ev, eu⟩, xq, yq, zq, none, resp⟩ 1 =
        .ok (some (roundValue (ev / 100) 2))
    ∧ saturate evalE ⟨some ⟨some sv, su⟩, some ⟨some ev, eu⟩, xq, yq, zq, ea, resp⟩ 0 =
        .ok ("saturate(" ++ ratToJsString (roundValue sv 0) ++ "%)")
    ∧ saturate evalE ⟨some ⟨some sv, su⟩, some ⟨some ev, eu⟩, xq, yq, zq, ea, resp⟩ 1 =
        .ok ("saturate(" ++ ratToJsString (roundValue ev 0) ++ "%)")
    ∧ blur evalE ⟨some ⟨some sv, su⟩, some ⟨some ev, eu⟩, xq, yq, zq, ea, resp⟩ 0 =
        .ok ("blur(" ++ ratToJsString (roundValue sv 0) ++ "px)")
    ∧ blur evalE ⟨some ⟨some sv, su⟩, some ⟨some ev, eu⟩, xq, yq, zq, ea, resp⟩ 1 =
        .ok ("blur(" ++ ratToJsString (roundValue ev 0) ++ "px)")
    ∧ rotate evalE ⟨some ⟨some sv, su⟩, some ⟨some ev, eu⟩, xq, yq, zq, none, resp⟩ 0 =
        .ok ("rotate(" ++ ratToJsString (roundValue sv 1) ++ "deg)")
    ∧ rotate evalE ⟨some ⟨some sv, su⟩, some ⟨some ev, eu⟩, xq, yq, zq, none, resp⟩ 1 =
        .ok ("rotate(" ++ ratToJsString (roundValue ev 1) ++ "deg)")
    ∧ scale evalE ⟨some ⟨some sv, su⟩, some ⟨some ev, eu⟩, xq, yq, zq, none, resp⟩ 0 =
        .ok ("scale(" ++ ratToJsString (roundValue (sv / 100) 2) ++ ")")
    ∧ scale evalE ⟨some ⟨some sv, su⟩, some ⟨some ev, eu⟩, xq, yq, zq, none, resp⟩ 1 =
        .ok ("scale(" ++ ratToJsString (roundValue (ev / 100) 2) ++ ")")
    ∧ move evalE ⟨stt, enn,
          some ⟨some ⟨some sxv, sxu⟩, some ⟨some exv, exu⟩⟩,
          some ⟨some ⟨some syv, syu⟩, some ⟨some eyv, eyu⟩⟩, zq, none, resp⟩ 0 rs es ws =
        .ok ("translate(" ++ ratToJsString (roundValue (calculateUnitValue sxu sxv ws rs.x es.x) 1)
          ++ "px, " ++ ratToJsString (roundValue (calculateUnitValue syu syv ws rs.y es.y) 1) ++ "px)")
    ∧ move evalE ⟨stt, enn,
          some ⟨some ⟨some sxv, sxu⟩, some ⟨some exv, exu⟩⟩,
          some ⟨some ⟨some syv, syu⟩, some ⟨some eyv, eyu⟩⟩, zq, none, resp⟩ 1 rs es ws =
        .ok ("translate(" ++ ratToJsString (roundValue (calculateUnitValue exu exv ws rs.x es.x) 1)
          ++ "px, " ++ ratToJsString (roundValue (calculateUnitValue eyu eyv ws rs.y es.y) 1) ++ "px)") := by
  refine ⟨gap_zero evalE sv ev, gap_one evalE sv ev, ?_, ?_, ?_, ?_, ?_, ?_, ?_, ?_, ?_, ?_, ?_, ?_⟩
  · simp [fade, reqField, gap_zero, Except.bind, bind]
  · simp [fade, reqField, gap_one, Except.bind, bind]
  · simp [saturate, reqField, gap_zero, jnumToString, Except.bind, bind]
  · simp [saturate, reqField, gap_one, jnumToString, Except.bind, bind]
  · simp [blur, reqField, gap_zero, jnumToString, Except.bind, bind]
  · simp [blur, reqField, gap_one, jnumToString, Except.bind, bind]
  · simp [rotate, reqField, gap_zero, jnumToString, Except.bind, bind]
  · simp [rotate, reqField, gap_one, jnumToString, Except.bind, bind]
  · simp [scale, reqField, gap_zero, jnumToString, Except.bind, bind]
  · simp [scale, reqField, gap_one, jnumToString, Except.bind, bind]
  · simp [move, reqField, gap_zero, jnumToString, Except.bind, bind]
  · simp [move, reqField, gap_one, jnumToString, Except.bind, bind]

/-- C10: a `move` config with neither an `x` nor a `y` axis entry emits
exactly `translate(0px, 0px)` for every progress, geometry and easing
(each missing axis contributes the constant 0), and through the `animate`
pass a declared move always writes a transform — unlike `fade`, `saturate`
and `blur`, which are skipped entirely (no style write) when `start`/`end`
are absent from the effective config. -/
theorem C10_move_default_translate (evalE : EasingFn → ℚ → ℚ)
    (stt enn : Option SplitVU) (zq : Option AxisPair) (ea : Option String)
    (resp : Option (List (String × ExtractCfg))) (p : ℚ) (rs es ws : Sizes) (bp : String) :
    move evalE ⟨stt, enn, none, none, zq, ea, resp⟩ p rs es ws = .ok "translate(0px, 0px)"
    ∧ animateBlock evalE [.move ⟨stt, enn, none, none, zq, ea, none⟩] bp p rs es ws =
        .ok ⟨some "translate(0px, 0px)", none, none⟩
    ∧ animateBlock evalE [.fade ⟨none, enn, none, none, zq, ea, none⟩] bp p rs es ws =
        .ok ⟨none, none, none⟩
    ∧ animateBlock evalE [.saturate ⟨none, enn, none, none, zq, ea, none⟩] bp p rs es ws =
        .ok ⟨none, none, none⟩
    ∧ animateBlock evalE [.blur ⟨none, enn, none, none, zq, ea, none⟩] bp p rs es ws =
        .ok ⟨none, none, none⟩ := by
  have hr : roundValue 0 1 = 0 := by norm_num [roundValue]
  have h0 : ratToJsString 0 = "0" := by decide
  refine ⟨?_, ?_, ?_, ?_, ?_⟩
  · simp [move, Except.bind, bind, hr, h0, jnumToString]
  · simp [animateBlock, animStep, effectiveCfg, move, List.foldlM, Except.bind, bind, pure,
      Except.pure, hr, h0, jnumToString, joinSep]
  · simp [animateBlock, animStep, effectiveCfg, List.foldlM, Except.bind, bind, pure, Except.pure]
  · simp [animateBlock, animStep, effectiveCfg, List.foldlM, Except.bind, bind, pure, Except.pure]
  · simp [animateBlock, animStep, effectiveCfg, List.foldlM, Except.bind, bind, pure, Except.pure]

/-- C8: a malformed JSON attribute is recovered locally.  `safeParseJSON`
turns the parse failure into `{}` without throwing; an element whose `fade`
attribute is malformed (alongside any `move` attribute) produces exactly the
animation list of the move-only element plus an all-default empty fade
config; the `animate` pass skips such a fade entirely (appending it changes
nothing, in particular `opacity` stays untouched), while a lone move block
still writes its transform. -/
theorem C8_malformed_json_recovered (mv : JVal) (evalE : EasingFn → ℚ → ℚ)
    (bp : String) (p : ℚ) (rs es ws : Sizes) :
    safeParseJSON JsonSrc.malformed = JVal.obj []
    ∧ getAnimationData ⟨some (.valid mv), none, none, some .malformed, none, none⟩ =
        Except.map (fun l => l ++ [Animation.fade ⟨none, none, none, none, none, none, none⟩])
          (getAnimationData ⟨some (.valid mv), none, none, none, none, none⟩)
    ∧ (∀ anims : List Animation,
        animateBlock evalE (anims ++ [Animation.fade ⟨none, none, none, none, none, none, none⟩])
            bp p rs es ws
          = animateBlock evalE anims bp p rs es ws)
    ∧ (∀ c : AnimationCfg, animateBlock evalE [Animation.move c] bp p rs es ws =
        Except.map (fun t => ⟨some t, none, none⟩) (move evalE (effectiveCfg c bp) p rs es ws)) := by
  have hfade : mkAnimationCfg fadeDefaults (safeParseJSON .malformed) =
      .ok ⟨none, none, none, none, none, none, none⟩ := by decide
  refine ⟨rfl, ?_, ?_, ?_⟩
  · rcases hm : mkAnimationCfg moveDefaults (safeParseJSON (.valid mv)) with e | c
    · simp [getAnimationData, procAttr, hm, hfade, Except.bind, bind, Except.map, pure, Except.pure]
    · simp [getAnimationData, procAttr, hm, hfade, Except.bind, bind, Except.map, pure, Except.pure]
  · intro anims
    unfold animateBlock
    rw [List.foldlM_append]
    rcases hf : anims.foldlM (animStep evalE bp p rs es ws) ([], [], none) with e | acc
    · simp [hf, Except.bind, bind]
    · simp [hf, Except.bind, bind, List.foldlM, animStep, effectiveCfg, pure, Except.pure]
  · intro c
    rcases hm : move evalE (effectiveCfg c bp) p rs es ws with e | t
    · simp [animateBlock, animStep, List.foldlM, hm, Except.bind, bind, Except.map]
    · simp [animateBlock, animStep, List.foldlM, hm, Except.bind, bind, Except.map, pure,
        Except.pure, joinSep]

theorem getField_insertOverwrite {α : Type} (l : List (String × α)) (k k1 : String) (v : α) :
    getField (insertOverwrite l k v) k1 = if k = k1 then some v else getField l k1 := by
  induction l with
  | nil => simp [insertOverwrite, getField]
  | cons a t ih =>
      rcases a with ⟨ka, va⟩
      by_cases hak : ka = k
      · subst hak
        by_cases hk1 : ka = k1 <;> simp [insertOverwrite, getField, hk1]
      · by_cases ha1 : ka = k1
        · have hkk1 : ¬ k = k1 := fun hh => hak (ha1.trans hh.symm)
          have hk1k : ¬ k1 = k := fun hh => hak (ha1.trans hh)
          simp [insertOverwrite, getField, hak, ha1, hkk1, hk1k]
        · simp [insertOverwrite, getField, hak, ha1, ih]

theorem respStep_foldlM_lookup (d : DefaultObj) (bp : String) :
    ∀ (l : List (String × JVal)) (acc m : List (String × ExtractCfg)) (ov : ExtractCfg),
      List.foldlM (respStep d) acc l = .ok m → getField m bp = some ov →
      (∃ raw, lastLookup l bp = some raw ∧ extractStartEndData raw d = .ok ov)
      ∨ (lastLookup l bp = none ∧ getField acc bp = some ov) := by
  intro l
  induction l with
  | nil =>
      intro acc m ov hf hg
      simp [List.foldlM, pure, Except.pure] at hf
      subst hf
      exact Or.inr ⟨rfl, hg⟩
  | cons kv t ih =>
      intro acc m ov hf hg
      rcases hx : extractStartEndData kv.2 d with e | ex
      · simp [List.foldlM, respStep, hx, Except.bind, bind] at hf
      · simp only [List.foldlM, respStep, hx, Except.bind, bind] at hf
        rcases ih (insertOverwrite acc kv.1 ex) m ov (by simpa using hf) hg with
          ⟨raw, hl, hr⟩ | ⟨hnone, hacc⟩
        · exact Or.inl ⟨raw, by simp [lastLookup, hl], hr⟩
        · rw [getField_insertOverwrite] at hacc
          by_cases hkbp : kv.1 = bp
          · rw [if_pos hkbp] at hacc
            refine Or.inl ⟨kv.2, ?_, ?_⟩
            · simp [lastLookup, hnone, hkbp]
            · rw [hx]
              exact congrArg Except.ok (Option.some.inj hacc)
          · rw [if_neg hkbp] at hacc
            exact Or.inr ⟨by simp [lastLookup, hnone, hkbp], hacc⟩

/-- C7: when a per-breakpoint responsive override is stored for the active
breakpoint, the config the interpolators receive is that override taken
wholesale: it carries no easing and no responsive table of its own, and it
is exactly the extraction of the raw override object against the property
kind defaults — fields absent from the override fell back to the type
defaults during extraction, never to the base config's values. -/
theorem C7_responsive_override_wholesale (d : DefaultObj) (pd : JVal)
    (cfg : AnimationCfg) (m : List (String × ExtractCfg)) (bp : String) (ov : ExtractCfg)
    (hmk : mkAnimationCfg d pd = .ok cfg)
    (hresp : cfg.responsive = some m)
    (hbp : getField m bp = some ov) :
    effectiveCfg cfg bp = ov.toAnim
    ∧ ov.toAnim.easing = none
    ∧ ov.toAnim.responsive = none
    ∧ ∃ ovRaw : JVal, lastLookup (respFieldsOf pd) bp = some ovRaw
        ∧ extractStartEndData ovRaw d = .ok ov := by
  refine ⟨by simp [effectiveCfg, hresp, hbp], rfl, rfl, ?_⟩
  unfold mkAnimationCfg at hmk
  rcases hn : nullGuard pd with e | u
  · simp [hn, Except.bind, bind] at hmk
  · rcases hb : buildResp (respFieldsOf pd) d with e | respCfg
    · simp [hn, hb, Except.bind, bind] at hmk
    · rcases hx : extractStartEndData pd d with e | ex
      · simp [hn, hb, hx, Except.bind, bind] at hmk
      · simp only [hn, hb, hx, Except.bind, bind, Except.ok.injEq] at hmk
        subst hmk
        have hr : (if (respFieldsOf pd).isEmpty then none
            else some respCfg) = some m := hresp
        by_cases hemp : (respFieldsOf pd).isEmpty = true
        · rw [if_pos hemp] at hr
          cases hr
        · rw [if_neg hemp] at hr
          have hm : respCfg = m := Option.some.inj hr
          subst hm
          have hfold : List.foldlM (respStep d) [] (respFieldsOf pd) = .ok respCfg := by
            simpa [buildResp] using hb
          rcases respStep_foldlM_lookup d bp (respFieldsOf pd) [] respCfg ov hfold hbp with
            ⟨raw, hl, hrw⟩ | ⟨_, habs⟩
          · exact ⟨raw, hl, hrw⟩
          · simp [getField] at habs

theorem C7_responsive_override_wholesale_witness :
    mkAnimationCfg fadeDefaults c7pd = .ok c7cfg
    ∧ c7cfg.responsive = some [("phone", c7ov)]
    ∧ getField [("phone", c7ov)] "phone" = some c7ov
    ∧ (effectiveCfg c7cfg "phone" = c7ov.toAnim
      ∧ c7ov.toAnim.easing = none
      ∧ c7ov.toAnim.responsive = none
      ∧ ∃ ovRaw : JVal, lastLookup (respFieldsOf c7pd) "phone" = some ovRaw
          ∧ extractStartEndData ovRaw fadeDefaults = .ok c7ov) :=
  ⟨by decide, by decide, by decide,
    C7_responsive_override_wholesale fadeDefaults c7pd c7cfg [("phone", c7ov)] "phone" c7ov
      (by decide) (by decide) (by decide)⟩
